import Mathlib

/-!
Shallow embedding of `second assignment/part 3/benchmark.py`.

The Python file defines
  * `benchmark(warmups, iter, verbose, csv_file)`, a decorator factory whose
    returned decorator `benchmark_decorator` validates the configuration at
    wrap time and returns `wrapper_benchmark`, the timing wrapper;
  * `test(func)`, a scaling driver running `func` through four thread/iteration
    trials, each wrapped with `@benchmark(iter=n_iter, csv_file=f"f_{n}_{i}.csv")`.

Modelling choices.  Elapsed wall-clock times (`time.perf_counter` differences)
are modelled as rationals.  The behaviour of one call of the wrapped function
is an oracle `ora : Nat → Except String ℚ`: call number `k` (counted from 0
across the whole invocation, warmups first) either returns after `t` seconds
(`.ok t`) or raises an exception (`.error e`).  Exceptions raised at wrap time
are Python `ValueError` / `AttributeError` values.  Console/CSV output is kept
as structured data: the statistics of the printed table and the CSV rows.
-/

namespace Benchmark

/-- Equality of `Except` results is decidable when both component types have
decidable equality. -/
instance exceptDecidableEq {ε α : Type} [DecidableEq ε] [DecidableEq α] :
    DecidableEq (Except ε α)
  | .ok a, .ok b =>
    if h : a = b then .isTrue (by rw [h])
    else .isFalse (fun he => h (Except.ok.inj he))
  | .error a, .error b =>
    if h : a = b then .isTrue (by rw [h])
    else .isFalse (fun he => h (Except.error.inj he))
  | .ok _, .error _ => .isFalse (fun he => Except.noConfusion he)
  | .error _, .ok _ => .isFalse (fun he => Except.noConfusion he)

/-- Python exception raised while constructing the wrapper: the explicit
`ValueError`s of the argument checks, or the `AttributeError` that
`None.endswith(...)` raises when `csv_file` was omitted. -/
inductive PyErr where
  | valueError (msg : String)
  | attributeError (msg : String)
deriving DecidableEq, Repr

/-- The configuration captured by the closure `benchmark(warmups, iter, verbose,
csv_file)`.  `csv_file = none` models Python `None` (the default). -/
structure Config where
  warmups : Int
  iter : Int
  verbose : Bool
  csv_file : Option String
deriving DecidableEq, Repr

/-- Python `s.endswith(suf)` on a string: the suffix test, on the character
sequences. -/
def endswith (s suf : String) : Bool := suf.data.isSuffixOf s.data

/-- Python `x.endswith(suf)` where `x` may be `None`: on `None` the attribute
lookup itself raises `AttributeError` before any suffix is compared. -/
def pyEndswith : Option String → String → Except PyErr Bool
  | none, _ => .error (.attributeError "NoneType object has no attribute endswith")
  | some s, suf => .ok (endswith s suf)

/-- `benchmark(warmups, iter, verbose, csv_file)`: the factory body only defines
and returns the decorator closure, so the call itself always completes
normally, whatever the argument values; the returned closure is represented by
its captured `Config`. -/
def benchmark_call (warmups iter : Int) (verbose : Bool) (csv_file : Option String) :
    Except PyErr Config :=
  .ok { warmups := warmups, iter := iter, verbose := verbose, csv_file := csv_file }

/-- `benchmark_decorator(func)`: the wrap-time argument checks, in source
order (`warmups < 0`, then `iter <= 0`, then `not csv_file.endswith(".csv")`).
On success the wrapper closure (represented by its captured `Config`) exists;
no call of `func` has happened yet. -/
def benchmark_decorator (cfg : Config) : Except PyErr Config :=
  if cfg.warmups < 0 then
    .error (.valueError "warmups argument is invalid (must be >= 0)")
  else if cfg.iter ≤ 0 then
    .error (.valueError "iter argument is invalid (must be >= 0)")
  else
    match pyEndswith cfg.csv_file ".csv" with
    | .error e => .error e
    | .ok b =>
      if !b then .error (.valueError "csv_file is not a valid csv filename")
      else .ok cfg

/-- One data line `print("{0}, {1}, {2}".format(run_num, flag, timing))` of the
CSV file: 1-based run number, `"y"`/`"n"` warmup flag, elapsed seconds. -/
structure CsvRow where
  runNum : Nat
  flag : String
  timing : ℚ
deriving DecidableEq, Repr

/-- The CSV file written by the wrapper: the header line plus the data rows, in
the order they are printed. -/
structure CsvFile where
  header : String
  rows : List CsvRow
deriving DecidableEq, Repr

/-- The two CSV `for` loops: `warmups` lines flagged `y` (run numbers `1..warmups`,
timings `warmup_times[i]`), then `iter` lines flagged `n` (run numbers
restarting at 1, timings `times[i]`). -/
def buildCsv (warmups iter : Nat) (warmup_times times : List ℚ) : CsvFile :=
  { header := "run num, is warmup, timing"
    rows :=
      (List.range warmups).map
        (fun i => { runNum := i + 1, flag := "y", timing := warmup_times.getD i 0 })
      ++ (List.range iter).map
        (fun i => { runNum := i + 1, flag := "n", timing := times.getD i 0 }) }

/-- What one successful invocation of the wrapper reports: the recorded
timings, the statistics row of the printed table (`MIN`, `MAX`, `AVG`, `Var`;
`StDev` is `math.sqrt var`, see `out_stdev`), and the CSV content if any was
written. -/
structure Output where
  warmup_times : List ℚ
  times : List ℚ
  time_min : ℚ
  time_max : ℚ
  avg : ℚ
  var : ℚ
  csv : Option CsvFile
deriving DecidableEq, Repr

/-- `StDev = math.sqrt(var)`, the last column of the printed table. -/
noncomputable def out_stdev (o : Output) : ℝ := Real.sqrt (o.var : ℝ)

/-- Python `min(l)`: the running-minimum fold, raising on an empty sequence. -/
def pyMin : List ℚ → Except String ℚ
  | [] => .error "min() arg is an empty sequence"
  | x :: xs => .ok (xs.foldl min x)

/-- Python `max(l)`: the running-maximum fold, raising on an empty sequence. -/
def pyMax : List ℚ → Except String ℚ
  | [] => .error "max() arg is an empty sequence"
  | x :: xs => .ok (xs.foldl max x)

/-- Result of one phase loop (`for i in range(count): run(...)`): the collected
elapsed times together with the trace of calls actually performed, each call
tagged `(global call index, is-warmup flag)`.  When one call raises, the loop
stops there: the trace ends at the failing call and no time list is produced. -/
inductive PhaseResult where
  | ok (times : List ℚ) (calls : List (Nat × Bool))
  | err (e : String) (calls : List (Nat × Bool))
deriving DecidableEq, Repr

/-- Runs `count` consecutive slots, calling the wrapped function through `ora`
at global call indices `start, start + 1, ...`, strictly in that order. -/
def execPhase (ora : Nat → Except String ℚ) (isW : Bool) : Nat → Nat → PhaseResult
  | _start, 0 => .ok [] []
  | start, c + 1 =>
    match ora start with
    | .error e => .err e [(start, isW)]
    | .ok t =>
      match execPhase ora isW (start + 1) c with
      | .ok ts cs => .ok (t :: ts) ((start, isW) :: cs)
      | .err e cs => .err e ((start, isW) :: cs)

/-- Result of one invocation of the wrapper: either the full report plus the
call trace, or the uncaught exception plus the calls made before it.  In the
error case no `Output` exists: no statistics table and no CSV content. -/
inductive BenchResult where
  | ok (out : Output) (calls : List (Nat × Bool))
  | err (e : String) (calls : List (Nat × Bool))
deriving DecidableEq, Repr

/-- `wrapper_benchmark(*args, **kwargs)`: run the warmup loop, then the timed
loop, compute `min`/`max`/`avg`/`var` over the timed slots only (dividing by
`iter`), and write the CSV content when `csv_file` is truthy (Python
`if csv_file:`, false for `None` and for the empty string).  The ambient
logging-level mutation and the console prints carry no data beyond `Output`
and are not modelled further. -/
def wrapper_benchmark (cfg : Config) (ora : Nat → Except String ℚ) : BenchResult :=
  let w := cfg.warmups.toNat
  let n := cfg.iter.toNat
  match execPhase ora true 0 w with
  | .err e cs => .err e cs
  | .ok warmup_times cs1 =>
    match execPhase ora false w n with
    | .err e cs2 => .err e (cs1 ++ cs2)
    | .ok times cs2 =>
      match pyMin times, pyMax times with
      | .error e, _ => .err e (cs1 ++ cs2)
      | .ok _, .error e => .err e (cs1 ++ cs2)
      | .ok time_min, .ok time_max =>
        let avg := times.sum / (cfg.iter : ℚ)
        let var_list := times.map (fun x => (x - avg) ^ 2)
        let var := var_list.sum / (cfg.iter : ℚ)
        let csv : Option CsvFile :=
          match cfg.csv_file with
          | some s => if s ≠ "" then some (buildCsv w n warmup_times times) else none
          | none => none
        .ok { warmup_times := warmup_times, times := times, time_min := time_min,
              time_max := time_max, avg := avg, var := var, csv := csv }
          (cs1 ++ cs2)

/-- An oracle for a wrapped function that never raises: call number `k` takes
`f k` seconds. -/
def okOracle (f : Nat → ℚ) : Nat → Except String ℚ := fun k => .ok (f k)

/-- Output filename of one scaling trial: `f"f_{n_threads}_{n_iter}.csv"`. -/
def trial_csv (n_threads n_iter : Nat) : String :=
  "f_" ++ toString n_threads ++ "_" ++ toString n_iter ++ ".csv"

/-- The configuration `test`s helper `func_run` passes to `benchmark` for one
trial: `@benchmark(iter=n_iter, csv_file=f"f_{n_threads}_{n_iter}.csv")`, with
the defaults `warmups=0` and `verbose=False`. -/
def trial_config (n_threads n_iter : Nat) : Config :=
  { warmups := 0, iter := (n_iter : Int), verbose := false,
    csv_file := some (trial_csv n_threads n_iter) }

/-- Number of calls of the workload `func` made by one thread of the harness:
`iterate_f` runs `for _ in range(n_iter): func()`. -/
def iterate_f_calls (n_iter : Nat) : Nat := (List.range n_iter).length

/-- Number of `func` calls in a single execution of the harness `wrapper`:
`n_threads` threads are created, each running `iterate_f` to completion
(started then all joined), whatever their interleaving. -/
def harness_calls (n_threads n_iter : Nat) : Nat :=
  ((List.range n_threads).map (fun _ => iterate_f_calls n_iter)).sum

/-- Number of times the Measurement Wrapper executes the wrapped harness during
one trial, read off the call trace of `wrapper_benchmark`; `ora` gives the
timing behaviour of the harness runs. -/
def harness_runs (n_threads n_iter : Nat) (ora : Nat → Except String ℚ) : Nat :=
  match wrapper_benchmark (trial_config n_threads n_iter) ora with
  | .ok _ calls => calls.length
  | .err _ calls => calls.length

/-- Total number of workload (`func`) invocations over one whole trial: each
harness execution timed by the wrapper performs `harness_calls` of them. -/
def trial_total (n_threads n_iter : Nat) (ora : Nat → Except String ℚ) : Nat :=
  harness_runs n_threads n_iter ora * harness_calls n_threads n_iter

/-- The four fixed `(n_threads, n_iter)` trials of `test`. -/
def trials : List (Nat × Nat) := [(1, 16), (2, 8), (4, 4), (8, 2)]

/-- A concrete harness-timing oracle (every run succeeds instantly), used to
evaluate whole trials on concrete inputs. -/
def ora0 : Nat → Except String ℚ := fun _ => .ok 0

/-! ### Helper lemmas -/

/-- Splitting a mapped range at its head, shifting the start index. -/
lemma range_map_shift {α : Type} (g : Nat → α) (c start : Nat) :
    (List.range (c + 1)).map (fun k => g (start + k)) =
      g start :: (List.range c).map (fun k => g (start + 1 + k)) := by
  rw [List.range_succ_eq_map, List.map_cons, List.map_map]
  refine congrArg₂ _ (by rw [Nat.add_zero]) ?_
  apply List.map_congr_left
  intro i _
  simp only [Function.comp_apply]
  congr 1
  omega

/-- With a never-raising oracle, a phase of `c` slots starting at call index
`start` collects the oracle values at `start, ..., start + c - 1` and performs
exactly those calls, in index order. -/
lemma execPhase_okOracle (f : Nat → ℚ) (isW : Bool) :
    ∀ (c start : Nat),
      execPhase (okOracle f) isW start c =
        .ok ((List.range c).map (fun k => f (start + k)))
          ((List.range c).map (fun k => (start + k, isW))) := by
  intro c
  induction c with
  | zero => intro start; rfl
  | succ c ih =>
    intro start
    rw [range_map_shift f c start, range_map_shift (fun k => (k, isW)) c start]
    simp only [execPhase, okOracle, ih (start + 1)]

/-- The running-minimum fold is bounded by its initial value. -/
lemma foldl_min_le : ∀ (l : List ℚ) (a : ℚ), l.foldl min a ≤ a
  | [], a => le_refl a
  | b :: l, a => le_trans (foldl_min_le l (min a b)) (min_le_left a b)

/-- The running-minimum fold is bounded by every list element. -/
lemma foldl_min_le_mem : ∀ (l : List ℚ) (a x : ℚ), x ∈ l → l.foldl min a ≤ x
  | b :: l, a, x, hx => by
    rcases List.mem_cons.mp hx with rfl | hx
    · exact le_trans (foldl_min_le l (min a x)) (min_le_right a x)
    · exact foldl_min_le_mem l (min a b) x hx

/-- The running-maximum fold dominates its initial value. -/
lemma le_foldl_max : ∀ (l : List ℚ) (a : ℚ), a ≤ l.foldl max a
  | [], a => le_refl a
  | b :: l, a => le_trans (le_max_left a b) (le_foldl_max l (max a b))

/-- The running-maximum fold dominates every list element. -/
lemma mem_le_foldl_max : ∀ (l : List ℚ) (a x : ℚ), x ∈ l → x ≤ l.foldl max a
  | b :: l, a, x, hx => by
    rcases List.mem_cons.mp hx with rfl | hx
    · exact le_trans (le_max_right a x) (le_foldl_max l (max a x))
    · exact mem_le_foldl_max l (max a b) x hx

/-- `min(l)` is a lower bound of `l`. -/
lemma pyMin_le_mem {l : List ℚ} {m : ℚ} (h : pyMin l = .ok m) :
    ∀ x ∈ l, m ≤ x := by
  match l with
  | [] => simp [pyMin] at h
  | y :: ys =>
    simp only [pyMin, Except.ok.injEq] at h
    subst h
    intro x hx
    rcases List.mem_cons.mp hx with rfl | hx
    · exact foldl_min_le ys x
    · exact foldl_min_le_mem ys y x hx

/-- `max(l)` is an upper bound of `l`. -/
lemma mem_le_pyMax {l : List ℚ} {m : ℚ} (h : pyMax l = .ok m) :
    ∀ x ∈ l, x ≤ m := by
  match l with
  | [] => simp [pyMax] at h
  | y :: ys =>
    simp only [pyMax, Except.ok.injEq] at h
    subst h
    intro x hx
    rcases List.mem_cons.mp hx with rfl | hx
    · exact le_foldl_max ys x
    · exact mem_le_foldl_max ys y x hx

/-- `min(l)` only succeeds on a non-empty sequence. -/
lemma pyMin_ok_ne_nil {l : List ℚ} {m : ℚ} (h : pyMin l = .ok m) : l ≠ [] := by
  intro he
  subst he
  simp [pyMin] at h

/-- Inversion of a successful phase: `c` timings were collected and exactly the
calls `start, ..., start + c - 1` were performed, warmup-tagged, in order. -/
lemma execPhase_ok_inv (ora : Nat → Except String ℚ) (isW : Bool) :
    ∀ (c start : Nat) (ts : List ℚ) (cs : List (Nat × Bool)),
      execPhase ora isW start c = .ok ts cs →
        ts.length = c ∧ cs = (List.range c).map (fun k => (start + k, isW)) := by
  intro c
  induction c with
  | zero =>
    intro start ts cs h
    simp only [execPhase, PhaseResult.ok.injEq] at h
    obtain ⟨rfl, rfl⟩ := h
    simp
  | succ c ih =>
    intro start ts cs h
    rw [range_map_shift (fun k => (k, isW)) c start]
    cases h1 : ora start with
    | error e => simp [execPhase, h1] at h
    | ok t =>
      cases h2 : execPhase ora isW (start + 1) c with
      | err e cs2 => simp [execPhase, h1, h2] at h
      | ok ts2 cs2 =>
        simp only [execPhase, h1, h2, PhaseResult.ok.injEq] at h
        obtain ⟨rfl, rfl⟩ := h
        obtain ⟨hlen, hcs⟩ := ih (start + 1) ts2 cs2 h2
        exact ⟨by simp [hlen], by rw [hcs]⟩

/-- A phase whose first failing call is slot `j` (counted from `start`) stops
right after call `j`: the uncaught exception comes out and the performed calls
are exactly `start, ..., j`. -/
lemma execPhase_err_at (ora : Nat → Except String ℚ) (isW : Bool) (e : String) :
    ∀ (c start j : Nat), start ≤ j → j < start + c →
      (∀ k, start ≤ k → k < j → ∃ t, ora k = .ok t) →
      ora j = .error e →
      execPhase ora isW start c =
        .err e ((List.range (j + 1 - start)).map (fun k => (start + k, isW))) := by
  intro c
  induction c with
  | zero => intro start j h1 h2 _ _; omega
  | succ c ih =>
    intro start j h1 h2 hok he
    rcases Nat.eq_or_lt_of_le h1 with rfl | hlt
    · have hj1 : start + 1 - start = 1 := by omega
      rw [hj1]
      simp [execPhase, he, List.range_succ]
    · obtain ⟨t, ht⟩ := hok start le_rfl hlt
      have hrec := ih (start + 1) j hlt (by omega)
        (fun k hk1 hk2 => hok k (by omega) hk2) he
      have hsp : j + 1 - start = (j - start) + 1 := by omega
      have hsp2 : j + 1 - (start + 1) = j - start := by omega
      rw [hsp, range_map_shift (fun k => (k, isW)) (j - start) start]
      simp only [execPhase, ht, hrec, hsp2]

/-- A phase whose calls all succeed returns some list of timings and performs
exactly the calls `start, ..., start + c - 1`, in order. -/
lemma execPhase_ok_of (ora : Nat → Except String ℚ) (isW : Bool) :
    ∀ (c start : Nat), (∀ k, k < c → ∃ t, ora (start + k) = .ok t) →
      ∃ ts, execPhase ora isW start c =
        .ok ts ((List.range c).map (fun k => (start + k, isW))) := by
  intro c
  induction c with
  | zero => intro start _; exact ⟨[], rfl⟩
  | succ c ih =>
    intro start hok
    obtain ⟨t, ht⟩ := hok 0 (Nat.succ_pos c)
    rw [Nat.add_zero] at ht
    obtain ⟨ts, hts⟩ := ih (start + 1)
      (fun k hk => by
        obtain ⟨u, hu⟩ := hok (k + 1) (by omega)
        exact ⟨u, by rw [show start + 1 + k = start + (k + 1) by omega]; exact hu⟩)
    rw [range_map_shift (fun k => (k, isW)) c start]
    exact ⟨t :: ts, by simp only [execPhase, ht, hts]⟩

/-- Inversion of a successful wrapper invocation: both phases succeeded and the
reported output fields are exactly what the source computes from the recorded
timings; the call trace is the warmup trace followed by the measured trace. -/
lemma wrapper_ok_inv (cfg : Config) (ora : Nat → Except String ℚ) (out : Output)
    (tr : List (Nat × Bool)) (h : wrapper_benchmark cfg ora = .ok out tr) :
    ∃ cs1 cs2,
      execPhase ora true 0 cfg.warmups.toNat = .ok out.warmup_times cs1 ∧
      execPhase ora false cfg.warmups.toNat cfg.iter.toNat = .ok out.times cs2 ∧
      pyMin out.times = .ok out.time_min ∧
      pyMax out.times = .ok out.time_max ∧
      out.avg = out.times.sum / (cfg.iter : ℚ) ∧
      out.var = (out.times.map (fun x => (x - out.avg) ^ 2)).sum / (cfg.iter : ℚ) ∧
      out.csv = (match cfg.csv_file with
        | some s => if s ≠ "" then
            some (buildCsv cfg.warmups.toNat cfg.iter.toNat out.warmup_times out.times)
          else none
        | none => none) ∧
      tr = cs1 ++ cs2 := by
  simp only [wrapper_benchmark] at h
  cases h1 : execPhase ora true 0 cfg.warmups.toNat with
  | err e cs => simp [h1] at h
  | ok wts cs1 =>
    cases h2 : execPhase ora false cfg.warmups.toNat cfg.iter.toNat with
    | err e cs => simp [h1, h2] at h
    | ok ts cs2 =>
      cases h3 : pyMin ts with
      | error e => simp [h1, h2, h3] at h
      | ok tmin =>
        cases h4 : pyMax ts with
        | error e => simp [h1, h2, h3, h4] at h
        | ok tmax =>
          simp only [h1, h2, h3, h4, BenchResult.ok.injEq] at h
          obtain ⟨rfl, rfl⟩ := h
          exact ⟨cs1, cs2, rfl, rfl, h3, h4, rfl, rfl, rfl, rfl⟩

/-- `max(l)` only succeeds on a non-empty sequence. -/
lemma pyMax_ok_ne_nil {l : List ℚ} {m : ℚ} (h : pyMax l = .ok m) : l ≠ [] := by
  intro he
  subst he
  simp [pyMax] at h

/-- Casting a positive `Int` through `toNat` to `ℚ` is the direct cast. -/
lemma toNat_cast_q {i : Int} (hi : 0 ≤ i) : ((i.toNat : ℚ)) = (i : ℚ) := by
  exact_mod_cast Int.toNat_of_nonneg hi

/-- `min(l)` is at most the arithmetic mean of `l`. -/
lemma pyMin_le_avg {l : List ℚ} {m : ℚ} (h : pyMin l = .ok m) :
    m ≤ l.sum / (l.length : ℚ) := by
  have hne := pyMin_ok_ne_nil h
  have hpos : 0 < (l.length : ℚ) := by exact_mod_cast List.length_pos.mpr hne
  rw [le_div_iff₀ hpos]
  have h2 := List.card_nsmul_le_sum l m (pyMin_le_mem h)
  rwa [nsmul_eq_mul, mul_comm] at h2

/-- The arithmetic mean of `l` is at most `max(l)`. -/
lemma avg_le_pyMax {l : List ℚ} {m : ℚ} (h : pyMax l = .ok m) :
    l.sum / (l.length : ℚ) ≤ m := by
  have hne := pyMax_ok_ne_nil h
  have hpos : 0 < (l.length : ℚ) := by exact_mod_cast List.length_pos.mpr hne
  rw [div_le_iff₀ hpos]
  have h2 := List.sum_le_card_nsmul l m (mem_le_pyMax h)
  rwa [nsmul_eq_mul, mul_comm] at h2

/-- The sum of squared deviations divided by a nonnegative count is
nonnegative. -/
lemma var_formula_nonneg (l : List ℚ) (a d : ℚ) (hd : 0 ≤ d) :
    0 ≤ (l.map (fun x => (x - a) ^ 2)).sum / d := by
  apply div_nonneg _ hd
  apply List.sum_nonneg
  intro x hx
  obtain ⟨y, _, rfl⟩ := List.mem_map.mp hx
  positivity

/-- Inversion of a successful wrap: the construction checks passed, so the
configuration is valid and was returned unchanged. -/
lemma benchmark_decorator_ok_inv {cfg c : Config} (h : benchmark_decorator cfg = .ok c) :
    c = cfg ∧ 0 ≤ cfg.warmups ∧ 0 < cfg.iter ∧
      ∃ s, cfg.csv_file = some s ∧ endswith s ".csv" = true := by
  simp only [benchmark_decorator] at h
  split_ifs at h with h1 h2
  cases hcs : cfg.csv_file with
    | none => rw [hcs] at h; simp [pyEndswith] at h
    | some s =>
      rw [hcs] at h
      simp only [pyEndswith] at h
      cases hend : endswith s ".csv" with
      | false => simp [hend] at h
      | true =>
        simp [hend] at h
        subst h
        exact ⟨rfl, by omega, by omega, s, rfl, hend⟩

/-- A string ending in `.csv` is non-empty, hence truthy in Python. -/
lemma ends_csv_ne_empty {s : String} (h : endswith s ".csv" = true) : s ≠ "" := by
  intro he
  subst he
  exact absurd h (by decide)

/-- Reading an in-range element of a mapped range. -/
lemma getD_map_range (g : Nat → ℚ) {i c : Nat} (hi : i < c) :
    ((List.range c).map g).getD i 0 = g i := by
  rw [List.getD_eq_getElem?_getD, List.getElem?_map, List.getElem?_range hi]
  rfl

/-- With a never-raising oracle and a positive iteration count, the wrapper
invocation succeeds. -/
lemma wrapper_okOracle_ok (cfg : Config) (f : Nat → ℚ) (hi : 0 < cfg.iter) :
    ∃ out tr, wrapper_benchmark cfg (okOracle f) = .ok out tr := by
  obtain ⟨n', hn⟩ : ∃ n', cfg.iter.toNat = n' + 1 := ⟨cfg.iter.toNat - 1, by omega⟩
  simp only [wrapper_benchmark]
  rw [execPhase_okOracle f true, execPhase_okOracle f false, hn,
    range_map_shift f n' cfg.warmups.toNat]
  exact ⟨_, _, rfl⟩

/-- Projecting the call indices out of a tagged trace segment. -/
lemma map_fst_pairs (c : Nat) (g : Nat → Nat) (b : Bool) :
    ((List.range c).map (fun k => (g k, b))).map Prod.fst = (List.range c).map g := by
  rw [List.map_map]
  apply List.map_congr_left
  intro i _
  rfl

/-! ### Claim theorems -/

/-- C10: calling the factory `benchmark(...)` never raises by itself, whatever
the argument values — even a negative warmup count, a non-positive iteration
count and a missing filename at once.  The configuration is captured
unvalidated, and the validation error surfaces only when the returned
decorator is subsequently applied to a function. -/
theorem c10_factory_never_raises :
    (∀ (w i : Int) (v : Bool) (c : Option String),
      benchmark_call w i v c =
        .ok { warmups := w, iter := i, verbose := v, csv_file := c }) ∧
    benchmark_call (-1) 0 false none =
      .ok { warmups := -1, iter := 0, verbose := false, csv_file := none } ∧
    ∃ e, benchmark_decorator
      { warmups := -1, iter := 0, verbose := false, csv_file := none } = .error e :=
  ⟨fun _ _ _ _ => rfl, rfl, ⟨_, rfl⟩⟩

/-- C2: omitting the output-file name entirely (`csv_file=None`, the default)
makes the wrap fail at construction time, before any execution of the wrapped
callable, rejected just as a filename with a malformed suffix is: absence is
not treated as skip-CSV-output.  (With `None` the unconditional suffix check
itself raises `AttributeError`; a malformed name raises `ValueError`.) -/
theorem c2_missing_filename_rejected (w i : Int) (v : Bool) :
    (∃ e, benchmark_decorator
      { warmups := w, iter := i, verbose := v, csv_file := none } = .error e) ∧
    (∀ s : String, endswith s ".csv" = false →
      ∃ e, benchmark_decorator
        { warmups := w, iter := i, verbose := v, csv_file := some s } = .error e) := by
  constructor
  · simp only [benchmark_decorator]
    split_ifs
    · exact ⟨_, rfl⟩
    · exact ⟨_, rfl⟩
    · exact ⟨_, rfl⟩
  · intro s hs
    simp only [benchmark_decorator]
    split_ifs
    · exact ⟨_, rfl⟩
    · exact ⟨_, rfl⟩
    · rw [show pyEndswith (some s) ".csv" = Except.ok false by simp [pyEndswith, hs]]
      exact ⟨_, rfl⟩

/-- C2 witness: with `warmups=0, iter=1`, both the omitted filename and the
malformed filename `out.txt` are rejected at construction time. -/
theorem c2_missing_filename_rejected_witness :
    (endswith "out.txt" ".csv" = false) ∧
    (∃ e, benchmark_decorator
      { warmups := 0, iter := 1, verbose := false, csv_file := none } = .error e) ∧
    (∃ e, benchmark_decorator
      { warmups := 0, iter := 1, verbose := false, csv_file := some "out.txt" } = .error e) :=
  ⟨by decide, (c2_missing_filename_rejected 0 1 false).1,
    (c2_missing_filename_rejected 0 1 false).2 "out.txt" (by decide)⟩

/-- C8: a negative warmup count, a non-positive iteration count, or a filename
not ending in `.csv` always raises at wrap-construction time: the decorator
returns an error, so no wrapper exists and the wrapped callable is never
invoked. -/
theorem c8_invalid_config_rejected (cfg : Config)
    (h : cfg.warmups < 0 ∨ cfg.iter ≤ 0 ∨
      ∃ s, cfg.csv_file = some s ∧ endswith s ".csv" = false) :
    ∃ e, benchmark_decorator cfg = .error e := by
  simp only [benchmark_decorator]
  split_ifs with h1 h2
  · exact ⟨_, rfl⟩
  · exact ⟨_, rfl⟩
  · rcases h with h | h | ⟨s, hs, hend⟩
    · exact absurd h h1
    · exact absurd h h2
    · rw [hs, show pyEndswith (some s) ".csv" = Except.ok false by
        simp [pyEndswith, hend]]
      exact ⟨_, rfl⟩

/-- C8 witness: a wrapper with a negative warmup count is rejected. -/
theorem c8_invalid_config_rejected_witness :
    ((-1 : Int) < 0) ∧
    ∃ e, benchmark_decorator
      { warmups := -1, iter := 1, verbose := false, csv_file := some "a.csv" } = .error e :=
  ⟨by decide, c8_invalid_config_rejected _ (Or.inl (by decide))⟩

/-- C1 counterexample: the four trials of `test` do NOT cause the same total
number of workload invocations, and no trial causes 16.  The wrapper is
configured with `iter=n_iter`, so it re-runs the whole harness `n_iter` times,
and each harness run makes `n_threads * n_iter = 16` workload calls: the trial
totals are 256, 128, 64 and 32. -/
theorem c1_counterexample :
    trial_total 1 16 ora0 = 256 ∧ trial_total 2 8 ora0 = 128 ∧
    trial_total 4 4 ora0 = 64 ∧ trial_total 8 2 ora0 = 32 ∧
    trial_total 1 16 ora0 ≠ trial_total 2 8 ora0 ∧
    trial_total 1 16 ora0 ≠ 16 := by
  decide

/-- C1 amended: in every trial a single execution of the concurrent harness
performs exactly `n_threads * n_iter = 16` workload invocations — that is the
quantity held constant across the worker/iteration splits — while the
Measurement Wrapper re-runs the harness `n_iter` times per trial (16, 8, 4, 2
measured runs); and the four trials write four distinct output files. -/
theorem c1_amended :
    harness_calls 1 16 = 16 ∧ harness_calls 2 8 = 16 ∧
    harness_calls 4 4 = 16 ∧ harness_calls 8 2 = 16 ∧
    harness_runs 1 16 ora0 = 16 ∧ harness_runs 2 8 ora0 = 8 ∧
    harness_runs 4 4 ora0 = 4 ∧ harness_runs 8 2 ora0 = 2 ∧
    (trials.map (fun p => trial_csv p.1 p.2)).Nodup := by
  decide

/-- C4: for every configuration accepted by the decorator and every timing
behaviour of the (never-raising) wrapped callable, one invocation of the
wrapper executes the underlying callable exactly `warmups + iter` times: the
call trace is the `warmups` warmup slots (flag `true`) followed by the `iter`
measured slots (flag `false`), and its call indices are the consecutive
sequence `0, 1, ..., warmups + iter - 1`, so all warmup slots run strictly
before all measured slots and each phase runs sequentially in index order. -/
theorem c4_execution_order (cfg : Config) (f : Nat → ℚ)
    (hv : benchmark_decorator cfg = .ok cfg) :
    ∃ out, wrapper_benchmark cfg (okOracle f) =
      .ok out ((List.range cfg.warmups.toNat).map (fun k => (k, true)) ++
        (List.range cfg.iter.toNat).map (fun k => (cfg.warmups.toNat + k, false))) ∧
      out.warmup_times.length = cfg.warmups.toNat ∧
      out.times.length = cfg.iter.toNat ∧
      (((List.range cfg.warmups.toNat).map (fun k => (k, true)) ++
        (List.range cfg.iter.toNat).map
          (fun k => (cfg.warmups.toNat + k, false))).map Prod.fst =
        List.range (cfg.warmups.toNat + cfg.iter.toNat)) := by
  obtain ⟨-, hw, hi, -⟩ := benchmark_decorator_ok_inv hv
  obtain ⟨out, tr, hok⟩ := wrapper_okOracle_ok cfg f hi
  obtain ⟨cs1, cs2, h1, h2, -, -, -, -, -, htr⟩ := wrapper_ok_inv cfg _ out tr hok
  rw [execPhase_okOracle f true] at h1
  rw [execPhase_okOracle f false] at h2
  simp only [PhaseResult.ok.injEq] at h1 h2
  obtain ⟨hwt, hcs1⟩ := h1
  obtain ⟨hts, hcs2⟩ := h2
  refine ⟨out, ?_, ?_, ?_, ?_⟩
  · rw [hok, htr, ← hcs1, ← hcs2]
    have : (List.range cfg.warmups.toNat).map (fun k => ((0 : Nat) + k, true)) =
        (List.range cfg.warmups.toNat).map (fun k => (k, true)) := by
      simp
    rw [this]
  · rw [← hwt]; simp
  · rw [← hts]; simp
  · rw [List.map_append, map_fst_pairs, map_fst_pairs, List.range_add, List.map_id']

/-- C5: the reported variance is the population variance of the measured-slot
timings — the sum of squared deviations from the mean divided by the sample
count `n = iter` (not `n - 1`) — and the reported standard deviation is its
square root; the warmup timings are excluded: the statistics are computed from
`times`, which holds exactly the measured slots (call indices
`warmups, ..., warmups + iter - 1`), while the warmup timings sit apart in
`warmup_times`. -/
theorem c5_population_variance (cfg : Config) (f : Nat → ℚ) (out : Output)
    (tr : List (Nat × Bool)) (hv : benchmark_decorator cfg = .ok cfg)
    (h : wrapper_benchmark cfg (okOracle f) = .ok out tr) :
    out.times = (List.range cfg.iter.toNat).map (fun k => f (cfg.warmups.toNat + k)) ∧
    out.warmup_times = (List.range cfg.warmups.toNat).map f ∧
    out.times.length = cfg.iter.toNat ∧
    out.avg = out.times.sum / (out.times.length : ℚ) ∧
    out.var = (out.times.map (fun x => (x - out.avg) ^ 2)).sum / (out.times.length : ℚ) ∧
    out_stdev out = Real.sqrt (out.var : ℝ) := by
  obtain ⟨-, hw, hi, -⟩ := benchmark_decorator_ok_inv hv
  obtain ⟨cs1, cs2, h1, h2, hmin, hmax, havg, hvar, hcsv, htr⟩ :=
    wrapper_ok_inv cfg _ out tr h
  rw [execPhase_okOracle f true] at h1
  rw [execPhase_okOracle f false] at h2
  simp only [PhaseResult.ok.injEq] at h1 h2
  obtain ⟨hwt, -⟩ := h1
  obtain ⟨hts, -⟩ := h2
  have hlen : out.times.length = cfg.iter.toNat := by rw [← hts]; simp
  have hlq : ((out.times.length : ℚ)) = ((cfg.iter : ℚ)) := by
    rw [hlen]; exact toNat_cast_q hi.le
  refine ⟨hts.symm, ?_, hlen, ?_, ?_, rfl⟩
  · rw [← hwt]; simp
  · rw [havg, hlq]
  · rw [hvar, hlq]

/-- C6: for every successful invocation (hence a non-empty sequence of
measured-slot timings), the computed aggregate statistics satisfy
`min ≤ mean ≤ max`, `variance ≥ 0`, and the standard deviation is the square
root of the variance (so `stdev² = variance` and `stdev ≥ 0`). -/
theorem c6_stats_sound (cfg : Config) (ora : Nat → Except String ℚ) (out : Output)
    (tr : List (Nat × Bool)) (h : wrapper_benchmark cfg ora = .ok out tr) :
    out.time_min ≤ out.avg ∧ out.avg ≤ out.time_max ∧ 0 ≤ out.var ∧
    out_stdev out = Real.sqrt (out.var : ℝ) ∧
    out_stdev out ^ 2 = ((out.var : ℚ) : ℝ) ∧ 0 ≤ out_stdev out := by
  obtain ⟨cs1, cs2, h1, h2, hmin, hmax, havg, hvar, hcsv, htr⟩ :=
    wrapper_ok_inv cfg _ out tr h
  obtain ⟨hlen, -⟩ := execPhase_ok_inv ora false _ _ _ _ h2
  have hne : out.times ≠ [] := pyMin_ok_ne_nil hmin
  have hnpos : 0 < out.times.length := List.length_pos.mpr hne
  have hipos : 0 < cfg.iter := by
    by_contra hle
    push_neg at hle
    have h0 : cfg.iter.toNat = 0 := Int.toNat_of_nonpos hle
    omega
  have hlq : ((out.times.length : ℚ)) = ((cfg.iter : ℚ)) := by
    rw [hlen]; exact toNat_cast_q hipos.le
  have havg2 : out.avg = out.times.sum / (out.times.length : ℚ) := by rw [havg, hlq]
  have hvnn : 0 ≤ out.var := by
    rw [hvar]
    exact var_formula_nonneg _ _ _ (by exact_mod_cast hipos.le)
  refine ⟨?_, ?_, hvnn, rfl, ?_, ?_⟩
  · rw [havg2]; exact pyMin_le_avg hmin
  · rw [havg2]; exact avg_le_pyMax hmax
  · simp only [out_stdev]
    exact Real.sq_sqrt (by exact_mod_cast hvnn)
  · exact Real.sqrt_nonneg _

/-- C9: whenever the wrap-time checks pass, the configured `csv_file` is a
string ending in `.csv`, hence non-empty, hence truthy; so the runtime
`if csv_file:` skip branch is unreachable and every successful invocation of a
constructible wrapper carries CSV output. -/
theorem c9_csv_always_written (cfg : Config) (ora : Nat → Except String ℚ)
    (out : Output) (tr : List (Nat × Bool))
    (hv : benchmark_decorator cfg = .ok cfg)
    (h : wrapper_benchmark cfg ora = .ok out tr) :
    (∃ s, cfg.csv_file = some s ∧ endswith s ".csv" = true ∧ s ≠ "") ∧
    out.csv.isSome = true := by
  obtain ⟨-, hw, hi, s, hcs, hend⟩ := benchmark_decorator_ok_inv hv
  obtain ⟨cs1, cs2, h1, h2, hmin, hmax, havg, hvar, hcsv, htr⟩ :=
    wrapper_ok_inv cfg _ out tr h
  have hsne := ends_csv_ne_empty hend
  refine ⟨⟨s, hcs, hend, hsne⟩, ?_⟩
  simp only [hcs] at hcsv
  rw [if_pos hsne] at hcsv
  rw [hcsv]
  rfl

/-- The CSV rows produced from recorded timing lists given as mapped ranges. -/
lemma buildCsv_rows_map (w n : Nat) (gw g : Nat → ℚ) :
    (buildCsv w n ((List.range w).map gw) ((List.range n).map g)).rows =
      (List.range w).map (fun i => { runNum := i + 1, flag := "y", timing := gw i }) ++
      (List.range n).map
        (fun i => { runNum := i + 1, flag := "n", timing := g i : CsvRow }) := by
  simp only [buildCsv]
  refine congrArg₂ _ ?_ ?_ <;>
  · apply List.map_congr_left
    intro i hi
    rw [getD_map_range _ (List.mem_range.mp hi)]

/-- C7: whenever CSV output is produced (always, for a constructible
configuration), it consists of the header line `run num, is warmup, timing`
followed by exactly `warmups + iter` data lines: first one line per warmup
slot flagged `y` with 1-based run numbers and the warmup timings in execution
order, then one line per measured slot flagged `n` with 1-based run numbers
restarting at 1 and the measured timings in execution order. -/
theorem c7_csv_layout (cfg : Config) (f : Nat → ℚ) (out : Output)
    (tr : List (Nat × Bool)) (hv : benchmark_decorator cfg = .ok cfg)
    (h : wrapper_benchmark cfg (okOracle f) = .ok out tr) :
    ∃ file, out.csv = some file ∧
      file.header = "run num, is warmup, timing" ∧
      file.rows.length = cfg.warmups.toNat + cfg.iter.toNat ∧
      file.rows =
        (List.range cfg.warmups.toNat).map
          (fun i => { runNum := i + 1, flag := "y", timing := f i }) ++
        (List.range cfg.iter.toNat).map
          (fun i => { runNum := i + 1, flag := "n",
                      timing := f (cfg.warmups.toNat + i) : CsvRow }) := by
  obtain ⟨-, hw, hi, s, hcs, hend⟩ := benchmark_decorator_ok_inv hv
  obtain ⟨cs1, cs2, h1, h2, hmin, hmax, havg, hvar, hcsv, htr⟩ :=
    wrapper_ok_inv cfg _ out tr h
  rw [execPhase_okOracle f true] at h1
  rw [execPhase_okOracle f false] at h2
  simp only [PhaseResult.ok.injEq] at h1 h2
  obtain ⟨hwt, -⟩ := h1
  obtain ⟨hts, -⟩ := h2
  simp only [Nat.zero_add] at hwt
  have hsne := ends_csv_ne_empty hend
  simp only [hcs] at hcsv
  rw [if_pos hsne] at hcsv
  refine ⟨_, hcsv, rfl, ?_, ?_⟩
  · simp [buildCsv]
  · rw [← hwt, ← hts, buildCsv_rows_map]

/-- C3: if the wrapped callable raises at slot `j` (whether warmup or
measured) and all earlier slots returned, the exception propagates uncaught
out of the wrapper with the very same payload, the remaining
`warmups + iter - (j + 1)` slots are aborted — the call trace is exactly
`0, ..., j` — and nothing is reported: the result is an error carrying no
`Output`, so no statistics table and no CSV content exist for the
invocation. -/
theorem c3_exception_propagates (cfg : Config) (ora : Nat → Except String ℚ)
    (e : String) (j : Nat)
    (hj : j < cfg.warmups.toNat + cfg.iter.toNat)
    (hok : ∀ k, k < j → ∃ t, ora k = .ok t)
    (he : ora j = .error e) :
    ∃ tr, wrapper_benchmark cfg ora = .err e tr ∧
      tr.map Prod.fst = List.range (j + 1) ∧
      tr.length = j + 1 := by
  by_cases hjw : j < cfg.warmups.toNat
  · have h1 := execPhase_err_at ora true e cfg.warmups.toNat 0 j (Nat.zero_le j)
      (by omega) (fun k _ hk2 => hok k hk2) he
    simp only [Nat.zero_add, Nat.sub_zero] at h1
    refine ⟨(List.range (j + 1)).map (fun k => (k, true)), ?_, ?_, ?_⟩
    · simp only [wrapper_benchmark, h1]
    · rw [map_fst_pairs, List.map_id']
    · simp
  · push_neg at hjw
    obtain ⟨wts, h1⟩ := execPhase_ok_of ora true cfg.warmups.toNat 0
      (fun k hk => by rw [Nat.zero_add]; exact hok k (by omega))
    simp only [Nat.zero_add] at h1
    have h2 := execPhase_err_at ora false e cfg.iter.toNat cfg.warmups.toNat j hjw
      (by omega) (fun k _ hk2 => hok k hk2) he
    refine ⟨(List.range cfg.warmups.toNat).map (fun k => (k, true)) ++
      (List.range (j + 1 - cfg.warmups.toNat)).map
        (fun k => (cfg.warmups.toNat + k, false)), ?_, ?_, ?_⟩
    · simp only [wrapper_benchmark, h1, h2]
    · rw [List.map_append, map_fst_pairs, map_fst_pairs, List.map_id',
        show j + 1 = cfg.warmups.toNat + (j + 1 - cfg.warmups.toNat) by omega,
        List.range_add]
      congr 1
      rw [show cfg.warmups.toNat + (j + 1 - cfg.warmups.toNat) - cfg.warmups.toNat
          = j + 1 - cfg.warmups.toNat by omega]
    · simp
      omega

/-! ### Concrete fixtures for witnesses -/

/-- A concrete constructible configuration: 1 warmup, 2 measured iterations,
output to `out.csv`. -/
def cfg0 : Config :=
  { warmups := 1, iter := 2, verbose := false, csv_file := some "out.csv" }

/-- A concrete timing behaviour: call number `k` takes `k` seconds. -/
def f0 : Nat → ℚ := fun k => (k : ℚ)

/-- The report `wrapper_benchmark cfg0 (okOracle f0)` produces. -/
def out0 : Output :=
  { warmup_times := [0], times := [1, 2], time_min := 1, time_max := 2,
    avg := 3 / 2, var := 1 / 4,
    csv := some { header := "run num, is warmup, timing",
                  rows := [{ runNum := 1, flag := "y", timing := 0 },
                           { runNum := 1, flag := "n", timing := 1 },
                           { runNum := 2, flag := "n", timing := 2 }] } }

/-- The call trace of `wrapper_benchmark cfg0 (okOracle f0)`. -/
def tr0 : List (Nat × Bool) := [(0, true), (1, false), (2, false)]

/-- A wrapped callable that raises `boom` at its second call (global index 1)
and returns instantly otherwise. -/
def oraFail : Nat → Except String ℚ := fun k => if k = 1 then .error "boom" else .ok 0

/-- C4 witness: with 1 warmup and 2 iterations the wrapper makes exactly the
calls `0, 1, 2` — the warmup strictly first, then the measured ones in
order. -/
theorem c4_execution_order_witness :
    benchmark_decorator cfg0 = .ok cfg0 ∧
    ∃ out, wrapper_benchmark cfg0 (okOracle f0) =
      .ok out ((List.range cfg0.warmups.toNat).map (fun k => (k, true)) ++
        (List.range cfg0.iter.toNat).map (fun k => (cfg0.warmups.toNat + k, false))) ∧
      out.warmup_times.length = cfg0.warmups.toNat ∧
      out.times.length = cfg0.iter.toNat ∧
      (((List.range cfg0.warmups.toNat).map (fun k => (k, true)) ++
        (List.range cfg0.iter.toNat).map
          (fun k => (cfg0.warmups.toNat + k, false))).map Prod.fst =
        List.range (cfg0.warmups.toNat + cfg0.iter.toNat)) :=
  ⟨by decide, c4_execution_order cfg0 f0 (by decide)⟩

/-- C5 witness: on the concrete run the measured timings are `[1, 2]`, the
mean is `3/2`, and the variance is the population variance `1/4` (dividing by
the sample count 2). -/
theorem c5_population_variance_witness :
    benchmark_decorator cfg0 = .ok cfg0 ∧
    wrapper_benchmark cfg0 (okOracle f0) = .ok out0 tr0 ∧
    (out0.times = (List.range cfg0.iter.toNat).map (fun k => f0 (cfg0.warmups.toNat + k)) ∧
     out0.warmup_times = (List.range cfg0.warmups.toNat).map f0 ∧
     out0.times.length = cfg0.iter.toNat ∧
     out0.avg = out0.times.sum / (out0.times.length : ℚ) ∧
     out0.var = (out0.times.map (fun x => (x - out0.avg) ^ 2)).sum / (out0.times.length : ℚ) ∧
     out_stdev out0 = Real.sqrt (out0.var : ℝ)) := by
  have hw : wrapper_benchmark cfg0 (okOracle f0) = .ok out0 tr0 := by
    norm_num [wrapper_benchmark, execPhase, okOracle, pyMin, pyMax, buildCsv, cfg0, f0,
      out0, tr0]
    decide
  exact ⟨by decide, hw, c5_population_variance cfg0 f0 out0 tr0 (by decide) hw⟩

/-- C6 witness: on the concrete run, `min = 1 ≤ mean = 3/2 ≤ max = 2`,
`var = 1/4 ≥ 0` and the standard deviation squares back to the variance. -/
theorem c6_stats_sound_witness :
    wrapper_benchmark cfg0 (okOracle f0) = .ok out0 tr0 ∧
    (out0.time_min ≤ out0.avg ∧ out0.avg ≤ out0.time_max ∧ 0 ≤ out0.var ∧
     out_stdev out0 = Real.sqrt (out0.var : ℝ) ∧
     out_stdev out0 ^ 2 = ((out0.var : ℚ) : ℝ) ∧ 0 ≤ out_stdev out0) := by
  have hw : wrapper_benchmark cfg0 (okOracle f0) = .ok out0 tr0 := by
    norm_num [wrapper_benchmark, execPhase, okOracle, pyMin, pyMax, buildCsv, cfg0, f0,
      out0, tr0]
    decide
  exact ⟨hw, c6_stats_sound cfg0 (okOracle f0) out0 tr0 hw⟩

/-- C7 witness: the concrete run CSV is the header plus the rows
`1, y, 0` then `1, n, 1` and `2, n, 2` — 1-based numbering restarting for the
measured phase, matching the execution order. -/
theorem c7_csv_layout_witness :
    benchmark_decorator cfg0 = .ok cfg0 ∧
    wrapper_benchmark cfg0 (okOracle f0) = .ok out0 tr0 ∧
    ∃ file, out0.csv = some file ∧
      file.header = "run num, is warmup, timing" ∧
      file.rows.length = cfg0.warmups.toNat + cfg0.iter.toNat ∧
      file.rows =
        (List.range cfg0.warmups.toNat).map
          (fun i => { runNum := i + 1, flag := "y", timing := f0 i }) ++
        (List.range cfg0.iter.toNat).map
          (fun i => { runNum := i + 1, flag := "n",
                      timing := f0 (cfg0.warmups.toNat + i) : CsvRow }) := by
  have hw : wrapper_benchmark cfg0 (okOracle f0) = .ok out0 tr0 := by
    norm_num [wrapper_benchmark, execPhase, okOracle, pyMin, pyMax, buildCsv, cfg0, f0,
      out0, tr0]
    decide
  exact ⟨by decide, hw, c7_csv_layout cfg0 f0 out0 tr0 (by decide) hw⟩

/-- C9 witness: the concrete constructible configuration names `out.csv`,
which is non-empty, and the concrete successful invocation carries CSV
output. -/
theorem c9_csv_always_written_witness :
    benchmark_decorator cfg0 = .ok cfg0 ∧
    wrapper_benchmark cfg0 (okOracle f0) = .ok out0 tr0 ∧
    ((∃ s, cfg0.csv_file = some s ∧ endswith s ".csv" = true ∧ s ≠ "") ∧
      out0.csv.isSome = true) := by
  have hw : wrapper_benchmark cfg0 (okOracle f0) = .ok out0 tr0 := by
    norm_num [wrapper_benchmark, execPhase, okOracle, pyMin, pyMax, buildCsv, cfg0, f0,
      out0, tr0]
    decide
  exact ⟨by decide, hw, c9_csv_always_written cfg0 (okOracle f0) out0 tr0 (by decide) hw⟩

/-- C3 witness: with 1 warmup and 2 iterations and a callable that raises
`boom` at global call 1 (the first measured slot), the wrapper propagates
`boom`, having performed only calls `0` and `1` — the second measured slot is
aborted and no report exists. -/
theorem c3_exception_propagates_witness :
    (1 < cfg0.warmups.toNat + cfg0.iter.toNat) ∧
    oraFail 1 = .error "boom" ∧
    ∃ tr, wrapper_benchmark cfg0 oraFail = .err "boom" tr ∧
      tr.map Prod.fst = List.range (1 + 1) ∧
      tr.length = 1 + 1 :=
  ⟨by decide, by decide,
    c3_exception_propagates cfg0 oraFail "boom" 1 (by decide)
      (fun k hk => ⟨0, by
        have hk0 : k = 0 := by omega
        subst hk0
        rfl⟩)
      (by decide)⟩

end Benchmark
